import Mathlib

/-!
Verification of the room-assignment optimization core (`src/core/room_optimizer.py`)
of the smart-class-tdd repository.

The code is shallowly embedded:

* Python floats used for temperatures, weights and scores become `ℚ`
  (every comparison and arithmetic operation the optimizer performs on them
  is exact on the values of interest).
* Python `int(x)` (truncation toward zero) becomes `pyInt`.
* `datetime` values become `PyDateTime`: a clock value (an integer time
  coordinate) plus an awareness flag.  Python raises `TypeError` when an
  offset-aware and an offset-naive datetime are ordered, which `pyGT` mirrors.
* Lesson timestamps are `Timestamp`s: the clock value the ISO-8601 string
  denotes plus whether the string carries a UTC suffix ("Z" or "+00:00").
  `datetime.fromisoformat(s.replace("Z", "+00:00"))` then yields an aware
  `PyDateTime` exactly when the string was UTC-suffixed.
* The CP-SAT model is embedded as the list of posted constraints
  (`CpConstraint`) plus the list of objective terms (`ObjTerm`); a solver
  solution is a boolean valuation `x : Nat → Nat → Bool` of the assignment
  variables, and a Feasible/Optimal solution is one that satisfies every
  posted constraint (`satAllB`).
* Fallible Python code (dict key access, naive/aware comparison) is embedded
  in `Except PyError`.
* The external sensor + regression pipeline consulted per (lesson, room) pair
  inside a `try/except` is abstracted as `forecast : Nat → Nat → Option ℚ`
  (`some t` = a successfully averaged forecast `t`, `none` = the hourly range
  was empty or an exception occurred); whether `joblib.load` of the regression
  model succeeded is the `modelLoaded` flag.
-/

namespace SmartClass

/-- Python `int()` applied to a rational number: truncation toward zero. -/
def pyInt (q : ℚ) : Int := q.num.tdiv q.den

/-- A room as consumed by the optimizer: `capacity`, `hasAC`, `hasHeater`. -/
structure Room where
  capacity : Nat
  hasAC : Bool
  hasHeater : Bool
deriving DecidableEq

/-- A lesson timestamp: the clock value its ISO-8601 string denotes, plus
whether the string carries a UTC suffix ("Z" or an explicit "+00:00"). -/
structure Timestamp where
  clock : Int
  utcSuffixed : Bool
deriving DecidableEq

/-- A lesson as consumed by the optimizer. -/
structure Lesson where
  student_count : Nat
  start_time : Timestamp
  end_time : Timestamp
deriving DecidableEq

/-- A Python `datetime`: clock value plus offset-awareness. -/
structure PyDateTime where
  clock : Int
  aware : Bool
deriving DecidableEq

/-- The Python exceptions the embedded code can raise. -/
inductive PyError where
  | keyError (k : String)
  | typeError
deriving DecidableEq

/-- Model of `datetime.fromisoformat(s.replace("Z", "+00:00"))`: always parses, and the
result is offset-aware exactly when the string was UTC-suffixed. -/
def fromisoformat_z (t : Timestamp) : PyDateTime :=
  PyDateTime.mk t.clock t.utcSuffixed

/-- Python `a > b` on datetimes: raises `TypeError` when exactly one side is
offset-aware, otherwise compares the clock values. -/
def pyGT (a b : PyDateTime) : Except PyError Bool :=
  if a.aware = b.aware then Except.ok (decide (b.clock < a.clock))
  else Except.error PyError.typeError

/-- A constraint posted on the CP-SAT model:
`model.Add(assignments[(i, j)] == 0)`, `model.AddExactlyOne(vars)`, or
`model.Add(assignments[(i1, j)] + assignments[(i2, j)] <= 1)`. -/
inductive CpConstraint where
  | eqZero (i j : Nat)
  | exactlyOne (vars : List (Nat × Nat))
  | sumLE1 (i1 i2 j : Nat)
deriving DecidableEq

/-- Whether a boolean valuation of the assignment variables satisfies one
posted constraint. -/
def satisfiesCp (x : Nat → Nat → Bool) : CpConstraint → Bool
  | CpConstraint.eqZero i j => !x i j
  | CpConstraint.exactlyOne vs => vs.countP (fun v => x v.1 v.2) == 1
  | CpConstraint.sumLE1 i1 i2 j => decide ((x i1 j).toNat + (x i2 j).toNat ≤ 1)

/-- Whether a valuation satisfies every constraint of a model.  A solution the
solver reports as Feasible or Optimal satisfies all posted constraints. -/
def satAllB (cs : List CpConstraint) (x : Nat → Nat → Bool) : Bool :=
  cs.all (satisfiesCp x)

/-- The list `valid_rooms` built by `_add_capacity_constraints` for lesson `i`:
the variables `(i, j)` of the rooms `j` with `capacity ≥ student_count`. -/
def valid_room_vars (rooms : List Room) (i : Nat) (student_count : Nat) :
    List (Nat × Nat) :=
  (rooms.enum.filter (fun jr => student_count ≤ jr.2.capacity)).map
    (fun jr => (i, jr.1))

/-- Model of `_add_capacity_constraints`: per lesson, force the variable of every room
with insufficient capacity to 0, and post `AddExactlyOne` over the valid
variables when at least one exists (otherwise only log a warning). -/
def add_capacity_constraints (rooms : List Room) (lessons : List Lesson) :
    List CpConstraint :=
  lessons.enum.flatMap (fun il =>
    ((rooms.enum.filter (fun jr => jr.2.capacity < il.2.student_count)).map
      (fun jr => CpConstraint.eqZero il.1 jr.1)) ++
    (if (valid_room_vars rooms il.1 il.2.student_count).isEmpty then []
     else [CpConstraint.exactlyOne (valid_room_vars rooms il.1 il.2.student_count)]))

/-- Model of `_add_no_overlap_constraints`: lesson times are converted to intervals
(the clock values of the parsed timestamps); for every room `j` and every pair
`i1 < i2` with `start1 < end2` and `start2 < end1`, post
`assignments[(i1, j)] + assignments[(i2, j)] <= 1`. -/
def add_no_overlap_constraints (rooms : List Room) (lessons : List Lesson) :
    List CpConstraint :=
  let intervals := lessons.map (fun l => (l.start_time.clock, l.end_time.clock))
  (List.range rooms.length).flatMap (fun j =>
    intervals.enum.flatMap (fun p1 =>
      intervals.enum.filterMap (fun p2 =>
        if p1.1 < p2.1 ∧ p1.2.1 < p2.2.2 ∧ p2.2.1 < p1.2.2
        then some (CpConstraint.sumLE1 p1.1 p2.1 j) else none)))

/-- Model of `self.preferences[k]`: dict access, raising `KeyError` when absent. -/
def lookupWeight (prefs : List (String × ℚ)) (k : String) : Except PyError ℚ :=
  match prefs.lookup k with
  | some w => Except.ok w
  | none => Except.error (PyError.keyError k)

/-- One linear objective term `coeff * assignments[(lessonIdx, roomIdx)]`. -/
structure ObjTerm where
  coeff : Int
  lessonIdx : Nat
  roomIdx : Nat
deriving DecidableEq

/-- Model of `_add_capacity_fit_objective`: for every capacity-valid (lesson, room)
pair, the term `int(capacity_ratio * 100 * preferences["capacity_weight"])`
times the pair's variable, where `capacity_ratio = student_count / capacity`
(0 when the capacity is 0). -/
def add_capacity_fit_objective (rooms : List Room) (lessons : List Lesson)
    (prefs : List (String × ℚ)) : Except PyError (List ObjTerm) := do
  let rows ← lessons.enum.mapM (fun il =>
    (rooms.enum.filter (fun jr => il.2.student_count ≤ jr.2.capacity)).mapM
      (fun jr => do
        let capacity_ratio : ℚ :=
          if 0 < jr.2.capacity
          then (il.2.student_count : ℚ) / (jr.2.capacity : ℚ) else 0
        let cw ← lookupWeight prefs "capacity_weight"
        pure (ObjTerm.mk (pyInt (capacity_ratio * 100 * cw)) il.1 jr.1)))
  pure rows.flatten

/-- The `hasAC` score chain of `_add_equipment_objective`. -/
def ac_score (p : ℚ) : ℚ :=
  if 25 < p then 50 else if 23 < p then 30 else if 21 < p then 10 else 0

/-- The `hasHeater` score chain of `_add_equipment_objective`. -/
def heater_score (p : ℚ) : ℚ :=
  if p < 17 then 50 else if p < 19 then 30 else if p < 21 then 10 else 0

/-- The raw equipment score of `_add_equipment_objective`: static 20 + 20
scoring beyond the 7-day horizon, temperature-dependent chains otherwise. -/
def equipment_score (room : Room) (beyond : Bool) (p : ℚ) : ℚ :=
  if beyond then
    (if room.hasAC then 20 else 0) + (if room.hasHeater then 20 else 0)
  else
    (if room.hasAC then ac_score p else 0) +
    (if room.hasHeater then heater_score p else 0)

/-- Model of `_add_equipment_objective`: per lesson, parse the start time (with the
"Z" → "+00:00" replacement) and compare it with `seven_days_from_now` —
this comparison raises `TypeError` when exactly one side is offset-aware;
then per room the term `int(equipment_score * preferences["equipment_weight"])`
times the pair's variable, the predicted temperature being looked up in the
prediction map with default 21.0. -/
def add_equipment_objective (rooms : List Room) (lessons : List Lesson)
    (prefs : List (String × ℚ)) (sevenDays : PyDateTime)
    (preds : List ((Nat × Nat) × ℚ)) : Except PyError (List ObjTerm) := do
  let rows ← lessons.enum.mapM (fun il => do
    let beyond ← pyGT (fromisoformat_z il.2.start_time) sevenDays
    rooms.enum.mapM (fun jr => do
      let p := (preds.lookup (il.1, jr.1)).getD 21
      let ew ← lookupWeight prefs "equipment_weight"
      pure (ObjTerm.mk (pyInt (equipment_score jr.2 beyond p * ew)) il.1 jr.1)))
  pure rows.flatten

/-- The comfort banding of `_add_temperature_objective`. -/
def temp_score (p : ℚ) : ℚ :=
  if 20 ≤ p ∧ p ≤ 22 then 100
  else if 19 ≤ p ∧ p ≤ 23 then 90
  else if 18 ≤ p ∧ p ≤ 24 then 70
  else if 17 ≤ p ∧ p ≤ 25 then 50
  else max 0 (30 - |p - 21| * 5)

/-- Model of `_add_temperature_objective`: for every (lesson, room) pair the term
`int(temp_score * preferences["temperature_weight"])` times the pair's
variable, the predicted temperature being looked up with default 21.0. -/
def add_temperature_objective (rooms : List Room) (lessons : List Lesson)
    (prefs : List (String × ℚ)) (preds : List ((Nat × Nat) × ℚ)) :
    Except PyError (List ObjTerm) := do
  let rows ← lessons.enum.mapM (fun il =>
    rooms.enum.mapM (fun jr => do
      let p := (preds.lookup (il.1, jr.1)).getD 21
      let tw ← lookupWeight prefs "temperature_weight"
      pure (ObjTerm.mk (pyInt (temp_score p * tw)) il.1 jr.1)))
  pure rows.flatten

/-- Model of `_calculate_all_temperature_predictions`: when the regression model cannot
be loaded the method returns at once, leaving `self.temperature_predictions`
empty.  Otherwise, per lesson the parsed start time is compared with
`seven_days_from_now` (raising `TypeError` on an aware/naive mix); lessons
beyond the horizon get 21.0 for every room, and otherwise each room's entry is
the per-pair forecast outcome, 21.0 when the hourly range was empty or the
`try` block raised. -/
def calculate_all_temperature_predictions (modelLoaded : Bool)
    (rooms : List Room) (lessons : List Lesson) (sevenDays : PyDateTime)
    (forecast : Nat → Nat → Option ℚ) :
    Except PyError (List ((Nat × Nat) × ℚ)) :=
  if modelLoaded then do
    let rows ← lessons.enum.mapM (fun il => do
      let beyond ← pyGT (fromisoformat_z il.2.start_time) sevenDays
      pure ((List.range rooms.length).map (fun j =>
        ((il.1, j), if beyond then (21 : ℚ) else (forecast il.1 j).getD 21))))
    pure rows.flatten
  else Except.ok []

/-- Round half to even, Python's rounding mode for `round`. -/
def roundHalfEven (q : ℚ) : Int :=
  if q - ⌊q⌋ < 1/2 then ⌊q⌋
  else if (1/2 : ℚ) < q - ⌊q⌋ then ⌊q⌋ + 1
  else if ⌊q⌋ % 2 = 0 then ⌊q⌋ else ⌊q⌋ + 1

/-- Python `round(q, 3)`. -/
def round3 (q : ℚ) : ℚ := (roundHalfEven (q * 1000) : ℚ) / 1000

/-- The `capacity_fit` sub-score reported by `_extract_solution`:
`min(student_count / capacity, 1.0)`, 0 when the capacity is 0. -/
def capacity_fit_raw (lesson : Lesson) (room : Room) : ℚ :=
  if 0 < room.capacity
  then min ((lesson.student_count : ℚ) / (room.capacity : ℚ)) 1 else 0

/-- The `equipment` sub-score reported by `_extract_solution`:
0.5 base, +0.25 for AC, +0.25 for a heater. -/
def equipment_raw (room : Room) : ℚ :=
  1/2 + (if room.hasAC then 1/4 else 0) + (if room.hasHeater then 1/4 else 0)

/-- The per-assignment score block reported by `_extract_solution`. -/
structure Scores where
  capacity_fit : ℚ
  equipment : ℚ
  temperature : ℚ
  overall : ℚ
deriving DecidableEq

/-- One entry of the `assignments` list of an extracted solution. -/
structure Assignment where
  lessonIdx : Nat
  roomIdx : Nat
  scores : Scores
deriving DecidableEq

/-- The assignment-list part of `_extract_solution`: per lesson, the first
room whose variable is 1 (lessons with none are omitted); the reported
`temperature` sub-score is the fixed placeholder 0.8, and `overall` is
`round(capacity_fit*cw + equipment*ew + 0.8*tw, 3)` with the three weights
read from the preferences dict (a `KeyError` risk, mirrored here). -/
def extract_assignments (rooms : List Room) (lessons : List Lesson)
    (prefs : List (String × ℚ)) (x : Nat → Nat → Bool) :
    Except PyError (List Assignment) := do
  let rows ← lessons.enum.mapM (fun il =>
    match rooms.enum.find? (fun jr => x il.1 jr.1) with
    | none => Except.ok ([] : List Assignment)
    | some jr => do
        let cf := capacity_fit_raw il.2 jr.2
        let eqs := equipment_raw jr.2
        let cw ← lookupWeight prefs "capacity_weight"
        let ew ← lookupWeight prefs "equipment_weight"
        let tw ← lookupWeight prefs "temperature_weight"
        Except.ok [Assignment.mk il.1 jr.1
          (Scores.mk (round3 cf) (round3 eqs) (4/5)
            (round3 (cf * cw + eqs * ew + (4/5) * tw)))])
  pure rows.flatten

/-- The default preference weights of `RoomOptimizer.__init__`. -/
def default_preferences : List (String × ℚ) :=
  [("temperature_weight", 3/10), ("equipment_weight", 1/5),
   ("capacity_weight", 1/2)]

/-- Model of `self.preferences = preferences or {...}`: the defaults are used exactly
when the argument is `None` or an empty dict. -/
def init_preferences (prefs : Option (List (String × ℚ))) :
    List (String × ℚ) :=
  match prefs with
  | none => default_preferences
  | some p => if p.isEmpty then default_preferences else p

/-- The terminal statuses the CP-SAT solver can report to `optimize`. -/
inductive SolveStatus where
  | optimal
  | feasible
  | other
deriving DecidableEq

/-- The result dict of `optimize` (solver statistics abbreviated to their
presence). -/
structure OptResult where
  status : String
  assignments : List Assignment
  hasSolverStats : Bool
deriving DecidableEq

/-- Model of `RoomOptimizer.optimize`: empty-lesson short-circuit, prediction pass,
hard constraints, the three objective families, solve, and extraction.  The
solver is abstracted as a function from the posted model to a terminal status
plus a valuation of the assignment variables. -/
def optimize (rooms : List Room) (lessons : List Lesson)
    (prefsArg : Option (List (String × ℚ))) (modelLoaded : Bool)
    (sevenDays : PyDateTime) (forecast : Nat → Nat → Option ℚ)
    (solve : List CpConstraint → List ObjTerm →
      SolveStatus × (Nat → Nat → Bool)) :
    Except PyError OptResult :=
  let prefs := init_preferences prefsArg
  if lessons.isEmpty then Except.ok (OptResult.mk "empty" [] false)
  else do
    let preds ← calculate_all_temperature_predictions modelLoaded rooms
      lessons sevenDays forecast
    let hard := add_capacity_constraints rooms lessons ++
      add_no_overlap_constraints rooms lessons
    let t1 ← add_capacity_fit_objective rooms lessons prefs
    let t2 ← add_equipment_objective rooms lessons prefs sevenDays preds
    let t3 ← add_temperature_objective rooms lessons prefs preds
    match solve hard (t1 ++ t2 ++ t3) with
    | (SolveStatus.optimal, x) => do
        let asg ← extract_assignments rooms lessons prefs x
        Except.ok (OptResult.mk "optimal" asg true)
    | (SolveStatus.feasible, x) => do
        let asg ← extract_assignments rooms lessons prefs x
        Except.ok (OptResult.mk "feasible" asg true)
    | (SolveStatus.other, _) => Except.ok (OptResult.mk "infeasible" [] true)

/-! ## Shared lemmas -/

lemma pyInt_eq_floor {q : ℚ} (h : 0 ≤ q) : pyInt q = ⌊q⌋ := by
  have hn : 0 ≤ q.num := Rat.num_nonneg.mpr h
  have hd : (0 : Int) ≤ (q.den : Int) := Int.ofNat_nonneg _
  rw [pyInt, Int.tdiv_eq_ediv hn hd, Rat.floor_def]

lemma mapM_ok_of_eq {α β ε : Type} (f : α → Except ε β) (g : α → β) (l : List α)
    (h : ∀ a ∈ l, f a = Except.ok (g a)) : l.mapM f = Except.ok (l.map g) := by
  induction l with
  | nil => rfl
  | cons a t ih =>
    rw [List.mapM_cons, h a (by simp), ih (fun b hb => h b (by simp [hb]))]
    rfl

lemma mapM_isOk_of_forall {α β ε : Type} (f : α → Except ε β) (l : List α)
    (h : ∀ a ∈ l, ∃ y, f a = Except.ok y) : ∃ ys, l.mapM f = Except.ok ys := by
  induction l with
  | nil => exact ⟨[], rfl⟩
  | cons a t ih =>
    obtain ⟨y, hy⟩ := h a (by simp)
    obtain ⟨ys, hys⟩ := ih (fun b hb => h b (by simp [hb]))
    exact ⟨y :: ys, by rw [List.mapM_cons, hy, hys]; rfl⟩

lemma mapM_ok_forall_mem {α β ε : Type} {f : α → Except ε β} {l : List α}
    {ys : List β} (h : l.mapM f = Except.ok ys) :
    ∀ a ∈ l, ∃ y ∈ ys, f a = Except.ok y := by
  induction l generalizing ys with
  | nil => intro a ha; exact absurd ha (List.not_mem_nil a)
  | cons a t ih =>
    rw [List.mapM_cons] at h
    cases hfa : f a with
    | error e => rw [hfa] at h; exact absurd h (by simp [Bind.bind, Except.bind])
    | ok y =>
      rw [hfa] at h
      cases hmt : t.mapM f with
      | error e =>
        rw [hmt] at h
        exact absurd h (by simp [Bind.bind, Except.bind])
      | ok ys2 =>
        rw [hmt] at h
        have hys : ys = y :: ys2 := by
          have h2 : Except.ok (ε := ε) (y :: ys2) = Except.ok ys := h
          exact (Except.ok.inj h2).symm
        subst hys
        intro b hb
        rcases List.mem_cons.mp hb with rfl | hbt
        · exact ⟨y, by simp, hfa⟩
        · obtain ⟨y2, hy2, hfy2⟩ := ih hmt b hbt
          exact ⟨y2, by simp [hy2], hfy2⟩

lemma mapM_ok_mem_source {α β ε : Type} {f : α → Except ε β} {l : List α}
    {ys : List β} (h : l.mapM f = Except.ok ys) :
    ∀ y ∈ ys, ∃ a ∈ l, f a = Except.ok y := by
  induction l generalizing ys with
  | nil =>
    have hys : ys = [] := by
      have h2 : Except.ok (ε := ε) ([] : List β) = Except.ok ys := h
      exact (Except.ok.inj h2).symm
    subst hys
    intro y hy; exact absurd hy (List.not_mem_nil y)
  | cons a t ih =>
    rw [List.mapM_cons] at h
    cases hfa : f a with
    | error e => rw [hfa] at h; exact absurd h (by simp [Bind.bind, Except.bind])
    | ok y =>
      rw [hfa] at h
      cases hmt : t.mapM f with
      | error e =>
        rw [hmt] at h
        exact absurd h (by simp [Bind.bind, Except.bind])
      | ok ys2 =>
        rw [hmt] at h
        have hys : ys = y :: ys2 := by
          have h2 : Except.ok (ε := ε) (y :: ys2) = Except.ok ys := h
          exact (Except.ok.inj h2).symm
        subst hys
        intro b hb
        rcases List.mem_cons.mp hb with rfl | hbt
        · exact ⟨a, by simp, hfa⟩
        · obtain ⟨a2, ha2, hfa2⟩ := ih hmt b hbt
          exact ⟨a2, by simp [ha2], hfa2⟩

lemma mem_enum_self {α : Type} (l : List α) (i : Nat) (hi : i < l.length) :
    (i, l[i]) ∈ l.enum :=
  List.mem_enum_iff_getElem?.mpr (List.getElem?_eq_getElem hi)

lemma mem_flatten_map {α β γ : Type} {a : α} {b : β} {la : List α} {lb : List β}
    (h : α → β → γ) (ha : a ∈ la) (hb : b ∈ lb) :
    h a b ∈ (la.map (fun x => lb.map (fun y => h x y))).flatten :=
  List.mem_flatten_of_mem (List.mem_map_of_mem _ ha) (List.mem_map_of_mem _ hb)

lemma lookupWeight_ok {prefs : List (String × ℚ)} {k : String} {w : ℚ}
    (h : prefs.lookup k = some w) : lookupWeight prefs k = Except.ok w := by
  rw [lookupWeight, h]

lemma temp_score_nonneg (p : ℚ) : 0 ≤ temp_score p := by
  unfold temp_score
  split_ifs <;> norm_num

/-- Concrete room used by the witnesses below. -/
def roomA : Room := Room.mk 30 true false

/-- Concrete lesson (offset-naive one-hour slot) used by the witnesses. -/
def lessonA : Lesson :=
  Lesson.mk 20 (Timestamp.mk 1000 false) (Timestamp.mk 1060 false)

/-- A concrete offset-naive `seven_days_from_now` value. -/
def sevenA : PyDateTime := PyDateTime.mk 100000 false

/-- Forecast stub: every per-pair prediction attempt fails or is empty. -/
def noForecast : Nat → Nat → Option ℚ := fun _ _ => none

/-! ## C10: symmetry of the comfort band around 21 °C -/

/-- The comfort banding as a function of the distance to 21 °C. -/
def tband (t : ℚ) : ℚ :=
  if t ≤ 1 then 100 else if t ≤ 2 then 90 else if t ≤ 3 then 70
  else if t ≤ 4 then 50 else max 0 (30 - t * 5)

lemma temp_score_eq_tband (p : ℚ) : temp_score p = tband |p - 21| := by
  have h1 : (20 ≤ p ∧ p ≤ 22) ↔ |p - 21| ≤ 1 := by
    rw [abs_le]; constructor <;> rintro ⟨a, b⟩ <;> exact ⟨by linarith, by linarith⟩
  have h2 : (19 ≤ p ∧ p ≤ 23) ↔ |p - 21| ≤ 2 := by
    rw [abs_le]; constructor <;> rintro ⟨a, b⟩ <;> exact ⟨by linarith, by linarith⟩
  have h3 : (18 ≤ p ∧ p ≤ 24) ↔ |p - 21| ≤ 3 := by
    rw [abs_le]; constructor <;> rintro ⟨a, b⟩ <;> exact ⟨by linarith, by linarith⟩
  have h4 : (17 ≤ p ∧ p ≤ 25) ↔ |p - 21| ≤ 4 := by
    rw [abs_le]; constructor <;> rintro ⟨a, b⟩ <;> exact ⟨by linarith, by linarith⟩
  simp only [temp_score, tband, h1, h2, h3, h4]

/-- C10: the unweighted temperature-comfort band score is symmetric about
21 °C: for every offset `d`, the score computed for predicted temperature
`21 + d` equals the score computed for `21 − d`. -/
theorem temp_score_symmetric (d : ℚ) :
    temp_score (21 + d) = temp_score (21 - d) := by
  rw [temp_score_eq_tband, temp_score_eq_tband]
  have e1 : (21 : ℚ) + d - 21 = d := by ring
  have e2 : (21 : ℚ) - d - 21 = -d := by ring
  rw [e1, e2, abs_neg]

/-! ## C3: the temperature-comfort objective term -/

lemma add_temperature_objective_ok (rooms : List Room) (lessons : List Lesson)
    (prefs : List (String × ℚ)) (preds : List ((Nat × Nat) × ℚ)) (tw : ℚ)
    (htw : prefs.lookup "temperature_weight" = some tw) :
    add_temperature_objective rooms lessons prefs preds =
      Except.ok (lessons.enum.map (fun il => rooms.enum.map (fun jr =>
        ObjTerm.mk (pyInt (temp_score ((preds.lookup (il.1, jr.1)).getD 21) * tw))
          il.1 jr.1))).flatten := by
  rw [add_temperature_objective]
  rw [mapM_ok_of_eq _ (fun il => rooms.enum.map (fun jr =>
        ObjTerm.mk (pyInt (temp_score ((preds.lookup (il.1, jr.1)).getD 21) * tw))
          il.1 jr.1)) _ ?_]
  · rfl
  · intro il _
    exact mapM_ok_of_eq _ _ _ (fun jr _ => by rw [lookupWeight_ok htw]; rfl)

lemma temp_score_at_21 : temp_score 21 = 100 := by norm_num [temp_score]

lemma temp_score_at_23 : temp_score 23 = 90 := by norm_num [temp_score]

lemma temp_score_at_245 : temp_score (49/2) = 50 := by norm_num [temp_score]

lemma temp_score_at_255 : temp_score (51/2) = 15/2 := by
  rw [temp_score_eq_tband]
  rw [show |(51 : ℚ)/2 - 21| = 9/2 from by rw [abs_of_nonneg] <;> norm_num]
  rw [show tband (9/2) = max 0 (30 - 9/2 * 5) from by norm_num [tband]]
  rw [max_eq_right (by norm_num : (0 : ℚ) ≤ 30 - 9/2 * 5)]
  norm_num

lemma temp_score_at_30 : temp_score 30 = 0 := by
  rw [temp_score_eq_tband]
  rw [show |(30 : ℚ) - 21| = 9 from by rw [abs_of_nonneg] <;> norm_num]
  rw [show tband 9 = max 0 (30 - 9 * 5) from by norm_num [tband]]
  rw [max_eq_left (by norm_num : (30 : ℚ) - 9 * 5 ≤ 0)]

/-- C3, counterexample: the claim asserts that predicted temperature 24.5
scores 70 and 25.5 scores 50, but the code's banding gives 24.5 the 50-band
(24.5 is outside 18..24 but inside 17..25) and 25.5 the fallback
`max(0, 30 − |25.5−21|·5) = 7.5` (25.5 is outside 17..25). -/
theorem temperature_band_examples_counterexample :
    temp_score (49/2) = 50 ∧ ¬ temp_score (49/2) = 70 ∧
    temp_score (51/2) = 15/2 ∧ ¬ temp_score (51/2) = 50 :=
  ⟨temp_score_at_245, by rw [temp_score_at_245]; norm_num,
   temp_score_at_255, by rw [temp_score_at_255]; norm_num⟩

/-- C3, amended: for every (lesson, room) pair with predicted temperature `p`
(looked up with default 21), the model's objective contains the term
`⌊temp_score p × temperature_weight⌋` on that pair's variable, where
`temp_score` is the banding 100 / 90 / 70 / 50 / `max 0 (30 − |p−21|·5)`;
in particular `p = 21 ↦ 100`, `23 ↦ 90`, `24.5 ↦ 50`, `25.5 ↦ 7.5`,
`30 ↦ 0`. -/
theorem temperature_objective_spec (rooms : List Room) (lessons : List Lesson)
    (prefs : List (String × ℚ)) (preds : List ((Nat × Nat) × ℚ)) (tw : ℚ)
    (htw : prefs.lookup "temperature_weight" = some tw) (h0 : 0 ≤ tw)
    (i j : Nat) (hi : i < lessons.length) (hj : j < rooms.length) :
    (∃ terms, add_temperature_objective rooms lessons prefs preds =
        Except.ok terms ∧
      ObjTerm.mk ⌊temp_score ((preds.lookup (i, j)).getD 21) * tw⌋ i j ∈ terms) ∧
    temp_score 21 = 100 ∧ temp_score 23 = 90 ∧ temp_score (49/2) = 50 ∧
    temp_score (51/2) = 15/2 ∧ temp_score 30 = 0 := by
  refine ⟨⟨_, add_temperature_objective_ok rooms lessons prefs preds tw htw, ?_⟩,
    temp_score_at_21, temp_score_at_23, temp_score_at_245,
    temp_score_at_255, temp_score_at_30⟩
  rw [← pyInt_eq_floor (mul_nonneg (temp_score_nonneg _) h0)]
  have h := mem_flatten_map
    (fun il jr => ObjTerm.mk
      (pyInt (temp_score ((preds.lookup (il.1, jr.1)).getD 21) * tw)) il.1 jr.1)
    (mem_enum_self lessons i hi) (mem_enum_self rooms j hj)
  simp only [] at h
  exact h

theorem temperature_objective_spec_witness :
    ([("temperature_weight", (1 : ℚ))].lookup "temperature_weight" = some 1) ∧
    ((0 : ℚ) ≤ 1) ∧ (0 < [lessonA].length) ∧ (0 < [roomA].length) ∧
    ((∃ terms, add_temperature_objective [roomA] [lessonA]
          [("temperature_weight", (1 : ℚ))] [] = Except.ok terms ∧
        ObjTerm.mk
          ⌊temp_score ((([] : List ((Nat × Nat) × ℚ)).lookup (0, 0)).getD 21) * 1⌋
          0 0 ∈ terms) ∧
      temp_score 21 = 100 ∧ temp_score 23 = 90 ∧ temp_score (49/2) = 50 ∧
      temp_score (51/2) = 15/2 ∧ temp_score 30 = 0) :=
  ⟨rfl, zero_le_one, by decide, by decide,
   temperature_objective_spec [roomA] [lessonA]
     [("temperature_weight", (1 : ℚ))] [] 1 rfl zero_le_one 0 0
     (by decide) (by decide)⟩

/-! ## C1: the capacity constraints -/

lemma satAllB_mem {cs : List CpConstraint} {x : Nat → Nat → Bool}
    {c : CpConstraint} (hs : satAllB cs x = true) (hc : c ∈ cs) :
    satisfiesCp x c = true := by
  rw [satAllB, List.all_eq_true] at hs
  exact hs c hc

lemma eqZero_mem_capacity (rooms : List Room) (lessons : List Lesson)
    {i j : Nat} (hi : i < lessons.length) (hj : j < rooms.length)
    (hc : rooms[j].capacity < lessons[i].student_count) :
    CpConstraint.eqZero i j ∈ add_capacity_constraints rooms lessons := by
  rw [add_capacity_constraints]
  refine List.mem_flatMap.mpr ⟨(i, lessons[i]), mem_enum_self lessons i hi, ?_⟩
  refine List.mem_append.mpr (Or.inl ?_)
  refine List.mem_map.mpr ⟨(j, rooms[j]), ?_, rfl⟩
  exact List.mem_filter.mpr ⟨mem_enum_self rooms j hj, by simpa using hc⟩

lemma exactlyOne_mem_capacity (rooms : List Room) (lessons : List Lesson)
    {i : Nat} (hi : i < lessons.length)
    (hne : valid_room_vars rooms i lessons[i].student_count ≠ []) :
    CpConstraint.exactlyOne (valid_room_vars rooms i lessons[i].student_count) ∈
      add_capacity_constraints rooms lessons := by
  rw [add_capacity_constraints]
  refine List.mem_flatMap.mpr ⟨(i, lessons[i]), mem_enum_self lessons i hi, ?_⟩
  refine List.mem_append.mpr (Or.inr ?_)
  simp only []
  rw [if_neg (by simpa [List.isEmpty_iff] using hne)]
  exact List.mem_singleton.mpr rfl

lemma no_valid_room (rooms : List Room) (i sc : Nat)
    (h : valid_room_vars rooms i sc = []) :
    ∀ j, (hj : j < rooms.length) → rooms[j].capacity < sc := by
  intro j hj
  by_contra hc
  push_neg at hc
  have hm : (i, j) ∈ valid_room_vars rooms i sc := by
    refine List.mem_map.mpr ⟨(j, rooms[j]), ?_, rfl⟩
    exact List.mem_filter.mpr ⟨mem_enum_self rooms j hj, by simpa using hc⟩
  rw [h] at hm
  exact absurd hm (List.not_mem_nil _)

lemma extract_row_lessonIdx {rooms : List Room} {prefs : List (String × ℚ)}
    {x : Nat → Nat → Bool} {il : Nat × Lesson} {row : List Assignment}
    (hrow : (match rooms.enum.find? (fun jr => x il.1 jr.1) with
      | none => Except.ok ([] : List Assignment)
      | some jr => do
          let cf := capacity_fit_raw il.2 jr.2
          let eqs := equipment_raw jr.2
          let cw ← lookupWeight prefs "capacity_weight"
          let ew ← lookupWeight prefs "equipment_weight"
          let tw ← lookupWeight prefs "temperature_weight"
          Except.ok [Assignment.mk il.1 jr.1
            (Scores.mk (round3 cf) (round3 eqs) (4/5)
              (round3 (cf * cw + eqs * ew + (4/5) * tw)))]) = Except.ok row) :
    ∀ a ∈ row, ∃ jr ∈ rooms.enum, x il.1 jr.1 = true ∧ a.lessonIdx = il.1 := by
  cases hfind : rooms.enum.find? (fun jr => x il.1 jr.1) with
  | none =>
    rw [hfind] at hrow
    have hrow2 : ([] : List Assignment) = row := Except.ok.inj hrow
    subst hrow2
    intro a ha
    exact absurd ha (List.not_mem_nil a)
  | some jr =>
    rw [hfind] at hrow
    cases hcw : lookupWeight prefs "capacity_weight" with
    | error e =>
      rw [hcw] at hrow
      exact absurd hrow (by simp [Bind.bind, Except.bind])
    | ok cw =>
      rw [hcw] at hrow
      cases hew : lookupWeight prefs "equipment_weight" with
      | error e =>
        rw [hew] at hrow
        exact absurd hrow (by simp [Bind.bind, Except.bind])
      | ok ew =>
        rw [hew] at hrow
        cases htw : lookupWeight prefs "temperature_weight" with
        | error e =>
          rw [htw] at hrow
          exact absurd hrow (by simp [Bind.bind, Except.bind])
        | ok tw =>
          rw [htw] at hrow
          have hrow2 : [Assignment.mk il.1 jr.1
              (Scores.mk (round3 (capacity_fit_raw il.2 jr.2))
                (round3 (equipment_raw jr.2)) (4/5)
                (round3 (capacity_fit_raw il.2 jr.2 * cw +
                  equipment_raw jr.2 * ew + (4/5) * tw)))] = row :=
            Except.ok.inj hrow
          subst hrow2
          intro a ha
          have ha2 := List.mem_singleton.mp ha
          subst ha2
          exact ⟨jr, List.mem_of_find?_eq_some hfind,
            by simpa using List.find?_some hfind, rfl⟩

lemma extract_assignments_sound (rooms : List Room) (lessons : List Lesson)
    (prefs : List (String × ℚ)) (x : Nat → Nat → Bool) (res : List Assignment)
    (h : extract_assignments rooms lessons prefs x = Except.ok res) :
    ∀ a ∈ res, ∃ il ∈ lessons.enum, ∃ jr ∈ rooms.enum,
      x il.1 jr.1 = true ∧ a.lessonIdx = il.1 := by
  rw [extract_assignments] at h
  cases hm : lessons.enum.mapM (fun il =>
      match rooms.enum.find? (fun jr => x il.1 jr.1) with
      | none => Except.ok ([] : List Assignment)
      | some jr => do
          let cf := capacity_fit_raw il.2 jr.2
          let eqs := equipment_raw jr.2
          let cw ← lookupWeight prefs "capacity_weight"
          let ew ← lookupWeight prefs "equipment_weight"
          let tw ← lookupWeight prefs "temperature_weight"
          Except.ok [Assignment.mk il.1 jr.1
            (Scores.mk (round3 cf) (round3 eqs) (4/5)
              (round3 (cf * cw + eqs * ew + (4/5) * tw)))]) with
  | error e =>
    rw [hm] at h
    exact absurd h (by simp [Bind.bind, Except.bind])
  | ok rows =>
    rw [hm] at h
    have hres : rows.flatten = res := Except.ok.inj h
    subst hres
    intro a ha
    obtain ⟨row, hrowmem, harow⟩ := List.mem_flatten.mp ha
    obtain ⟨il, hil, hrow⟩ := mapM_ok_mem_source hm row hrowmem
    obtain ⟨jr, hjr, hx, hidx⟩ := extract_row_lessonIdx hrow a harow
    exact ⟨il, hil, jr, hjr, hx, hidx⟩

lemma enum_fst_lt {α : Type} {l : List α} {p : Nat × α} (h : p ∈ l.enum) :
    p.1 < l.length := by
  have h2 := List.mem_enum_iff_getElem?.mp h
  obtain ⟨h3, _⟩ := List.getElem?_eq_some_iff.mp h2
  exact h3

/-- C1: under the posted capacity constraints, in any solution the solver
accepts (one satisfying every posted constraint): every variable of a room
with capacity below the lesson's student count is 0; a lesson with at least
one capacity-valid room has exactly one true variable among its valid rooms;
and a lesson with no capacity-valid room has all its variables 0 and receives
no assignment in the extracted solution. -/
theorem capacity_constraints_spec (rooms : List Room) (lessons : List Lesson)
    (x : Nat → Nat → Bool)
    (hs : satAllB (add_capacity_constraints rooms lessons) x = true)
    (i : Nat) (hi : i < lessons.length) :
    (∀ j, (hj : j < rooms.length) →
      rooms[j].capacity < lessons[i].student_count → x i j = false) ∧
    (valid_room_vars rooms i lessons[i].student_count ≠ [] →
      (valid_room_vars rooms i lessons[i].student_count).countP
        (fun v => x v.1 v.2) = 1) ∧
    (valid_room_vars rooms i lessons[i].student_count = [] →
      (∀ j, j < rooms.length → x i j = false) ∧
      ∀ prefs res, extract_assignments rooms lessons prefs x = Except.ok res →
        ∀ a ∈ res, a.lessonIdx ≠ i) := by
  have hzero : ∀ j, (hj : j < rooms.length) →
      rooms[j].capacity < lessons[i].student_count → x i j = false := by
    intro j hj hc
    have := satAllB_mem hs (eqZero_mem_capacity rooms lessons hi hj hc)
    rw [satisfiesCp] at this
    simpa using this
  refine ⟨hzero, ?_, ?_⟩
  · intro hne
    have := satAllB_mem hs (exactlyOne_mem_capacity rooms lessons hi hne)
    rw [satisfiesCp] at this
    simpa using this
  · intro hempty
    have hallzero : ∀ j, j < rooms.length → x i j = false := fun j hj =>
      hzero j hj (no_valid_room rooms i lessons[i].student_count hempty j hj)
    refine ⟨hallzero, ?_⟩
    intro prefs res hres a ha hidx
    obtain ⟨il, hil, jr, hjr, hx, hidx2⟩ :=
      extract_assignments_sound rooms lessons prefs x res hres a ha
    rw [hidx] at hidx2
    rw [← hidx2] at hx
    exact absurd hx (by rw [hallzero jr.1 (enum_fst_lt hjr)]; simp)

/-- Room with capacity 5 and no equipment, used in witnesses. -/
def roomB : Room := Room.mk 5 false false

/-- Lesson with 50 students (no valid room among `roomA`, `roomB`). -/
def lessonB : Lesson :=
  Lesson.mk 50 (Timestamp.mk 2000 false) (Timestamp.mk 2060 false)

/-- Valuation assigning lesson 0 to room 0 and nothing else. -/
def xA : Nat → Nat → Bool := fun i j => decide (i = 0 ∧ j = 0)

theorem capacity_constraints_spec_witness :
    (satAllB (add_capacity_constraints [roomA, roomB] [lessonA, lessonB]) xA
      = true) ∧ (1 < [lessonA, lessonB].length) ∧
    ((∀ j, (hj : j < [roomA, roomB].length) →
        [roomA, roomB][j].capacity < [lessonA, lessonB][1].student_count →
        xA 1 j = false) ∧
     (valid_room_vars [roomA, roomB] 1 [lessonA, lessonB][1].student_count ≠ [] →
       (valid_room_vars [roomA, roomB] 1
         [lessonA, lessonB][1].student_count).countP
         (fun v => xA v.1 v.2) = 1) ∧
     (valid_room_vars [roomA, roomB] 1 [lessonA, lessonB][1].student_count = [] →
       (∀ j, j < [roomA, roomB].length → xA 1 j = false) ∧
       ∀ prefs res, extract_assignments [roomA, roomB] [lessonA, lessonB]
           prefs xA = Except.ok res →
         ∀ a ∈ res, a.lessonIdx ≠ 1)) :=
  ⟨by decide, by decide,
   capacity_constraints_spec [roomA, roomB] [lessonA, lessonB] xA
     (by decide) 1 (by decide)⟩

/-! ## C2: the no-overlap constraints -/

lemma sumLE1_mem_no_overlap (rooms : List Room) (lessons : List Lesson)
    {i1 i2 j : Nat} (h1 : i1 < lessons.length) (h2 : i2 < lessons.length)
    (h12 : i1 < i2) (hj : j < rooms.length)
    (hov1 : lessons[i1].start_time.clock < lessons[i2].end_time.clock)
    (hov2 : lessons[i2].start_time.clock < lessons[i1].end_time.clock) :
    CpConstraint.sumLE1 i1 i2 j ∈ add_no_overlap_constraints rooms lessons := by
  rw [add_no_overlap_constraints]
  refine List.mem_flatMap.mpr ⟨j, List.mem_range.mpr hj, ?_⟩
  have hl1 : i1 < (lessons.map
      (fun l => (l.start_time.clock, l.end_time.clock))).length := by
    simpa using h1
  have hl2 : i2 < (lessons.map
      (fun l => (l.start_time.clock, l.end_time.clock))).length := by
    simpa using h2
  have hm1 := mem_enum_self _ i1 hl1
  have hm2 := mem_enum_self _ i2 hl2
  rw [List.getElem_map] at hm1 hm2
  refine List.mem_flatMap.mpr ⟨_, hm1, ?_⟩
  refine List.mem_filterMap.mpr ⟨_, hm2, ?_⟩
  simp only []
  rw [if_pos ⟨h12, hov1, hov2⟩]

/-- C2: for every room `j` and lessons `i1 < i2` whose half-open intervals
overlap (`start1 < end2` and `start2 < end1`), the model contains the posted
constraint `variable(i1,j) + variable(i2,j) ≤ 1`, and consequently any
solution satisfying the posted constraints assigns at most one of the two
lessons to that room. -/
theorem no_overlap_spec (rooms : List Room) (lessons : List Lesson)
    (j i1 i2 : Nat) (hj : j < rooms.length) (h1 : i1 < lessons.length)
    (h2 : i2 < lessons.length) (h12 : i1 < i2)
    (hov1 : lessons[i1].start_time.clock < lessons[i2].end_time.clock)
    (hov2 : lessons[i2].start_time.clock < lessons[i1].end_time.clock) :
    CpConstraint.sumLE1 i1 i2 j ∈ add_no_overlap_constraints rooms lessons ∧
    ∀ x : Nat → Nat → Bool,
      satAllB (add_no_overlap_constraints rooms lessons) x = true →
      (x i1 j).toNat + (x i2 j).toNat ≤ 1 := by
  have hmem := sumLE1_mem_no_overlap rooms lessons h1 h2 h12 hj hov1 hov2
  refine ⟨hmem, fun x hx => ?_⟩
  have := satAllB_mem hx hmem
  rw [satisfiesCp] at this
  exact of_decide_eq_true this

/-- Lesson overlapping `lessonA` in time (1030–1090 vs 1000–1060). -/
def lessonC : Lesson :=
  Lesson.mk 25 (Timestamp.mk 1030 false) (Timestamp.mk 1090 false)

theorem no_overlap_spec_witness :
    (0 < [roomA].length) ∧ (0 < [lessonA, lessonC].length) ∧
    (1 < [lessonA, lessonC].length) ∧ (0 < 1) ∧
    ([lessonA, lessonC][0].start_time.clock <
      [lessonA, lessonC][1].end_time.clock) ∧
    ([lessonA, lessonC][1].start_time.clock <
      [lessonA, lessonC][0].end_time.clock) ∧
    (CpConstraint.sumLE1 0 1 0 ∈
        add_no_overlap_constraints [roomA] [lessonA, lessonC] ∧
      ∀ x : Nat → Nat → Bool,
        satAllB (add_no_overlap_constraints [roomA] [lessonA, lessonC]) x =
          true → (x 0 0).toNat + (x 1 0).toNat ≤ 1) :=
  ⟨by decide, by decide, by decide, by decide, by decide, by decide,
   no_overlap_spec [roomA] [lessonA, lessonC] 0 0 1 (by decide) (by decide)
     (by decide) (by decide) (by decide) (by decide)⟩

/-! ## C5: the capacity-fit objective -/

lemma mem_flatten_map_dep {α β γ : Type} {a : α} {b : β} {la : List α}
    (lb : α → List β) (h : α → β → γ) (ha : a ∈ la) (hb : b ∈ lb a) :
    h a b ∈ (la.map (fun p => (lb p).map (fun q => h p q))).flatten :=
  List.mem_flatten_of_mem (List.mem_map_of_mem _ ha) (List.mem_map_of_mem _ hb)

lemma add_capacity_fit_objective_ok (rooms : List Room) (lessons : List Lesson)
    (prefs : List (String × ℚ)) (cw : ℚ)
    (hcw : prefs.lookup "capacity_weight" = some cw) :
    add_capacity_fit_objective rooms lessons prefs = Except.ok
      ((lessons.enum.map (fun il =>
        ((rooms.enum.filter (fun jr => il.2.student_count ≤ jr.2.capacity)).map
          (fun jr => ObjTerm.mk (pyInt ((if 0 < jr.2.capacity
            then (il.2.student_count : ℚ) / (jr.2.capacity : ℚ) else 0) *
            100 * cw)) il.1 jr.1)))).flatten) := by
  rw [add_capacity_fit_objective]
  rw [mapM_ok_of_eq _ (fun il =>
    ((rooms.enum.filter (fun jr => il.2.student_count ≤ jr.2.capacity)).map
      (fun jr => ObjTerm.mk (pyInt ((if 0 < jr.2.capacity
        then (il.2.student_count : ℚ) / (jr.2.capacity : ℚ) else 0) *
        100 * cw)) il.1 jr.1))) _ ?_]
  · rfl
  · intro il _
    exact mapM_ok_of_eq _ _ _ (fun jr _ => by rw [lookupWeight_ok hcw]; rfl)

lemma capacity_ratio_nonneg (sc cap : Nat) :
    0 ≤ (if 0 < cap then (sc : ℚ) / (cap : ℚ) else 0) := by
  split_ifs <;> positivity

/-- C5: a capacity-fit term is added exactly for the capacity-valid
(lesson, room) pairs, with coefficient
`⌊(student_count / capacity) × 100 × capacity_weight⌋` (ratio 0 when the
capacity is 0); room capacity 30 with 20 students at weight 1 yields the raw
term 66. -/
theorem capacity_fit_objective_spec (rooms : List Room) (lessons : List Lesson)
    (prefs : List (String × ℚ)) (cw : ℚ)
    (hcw : prefs.lookup "capacity_weight" = some cw) (h0 : 0 ≤ cw)
    (i j : Nat) (hi : i < lessons.length) (hj : j < rooms.length)
    (hvalid : lessons[i].student_count ≤ rooms[j].capacity) :
    (∃ terms, add_capacity_fit_objective rooms lessons prefs =
        Except.ok terms ∧
      ObjTerm.mk ⌊(if 0 < rooms[j].capacity
        then (lessons[i].student_count : ℚ) / (rooms[j].capacity : ℚ) else 0) *
        100 * cw⌋ i j ∈ terms ∧
      ∀ t ∈ terms, ∃ lesson room, lessons[t.lessonIdx]? = some lesson ∧
        rooms[t.roomIdx]? = some room ∧ lesson.student_count ≤ room.capacity) ∧
    add_capacity_fit_objective [Room.mk 30 false false]
      [Lesson.mk 20 (Timestamp.mk 0 false) (Timestamp.mk 0 false)]
      [("capacity_weight", 1)] = Except.ok [ObjTerm.mk 66 0 0] := by
  constructor
  · refine ⟨_, add_capacity_fit_objective_ok rooms lessons prefs cw hcw,
      ?_, ?_⟩
    · rw [← pyInt_eq_floor (mul_nonneg (mul_nonneg
        (capacity_ratio_nonneg _ _) (by norm_num)) h0)]
      have h := mem_flatten_map_dep
        (fun il => rooms.enum.filter
          (fun jr => il.2.student_count ≤ jr.2.capacity))
        (fun il jr => ObjTerm.mk (pyInt ((if 0 < jr.2.capacity
          then (il.2.student_count : ℚ) / (jr.2.capacity : ℚ) else 0) *
          100 * cw)) il.1 jr.1)
        (mem_enum_self lessons i hi)
        (List.mem_filter.mpr ⟨mem_enum_self rooms j hj, by simpa using hvalid⟩)
      simp only [] at h
      exact h
    · intro t ht
      obtain ⟨row, hrow, htrow⟩ := List.mem_flatten.mp ht
      obtain ⟨il, hil, hfrow⟩ := List.mem_map.mp hrow
      subst hfrow
      obtain ⟨jr, hjr, hjt⟩ := List.mem_map.mp htrow
      obtain ⟨hjre, hjcond⟩ := List.mem_filter.mp hjr
      subst hjt
      refine ⟨il.2, jr.2, ?_, ?_, by simpa using hjcond⟩
      · simpa using List.mem_enum_iff_getElem?.mp hil
      · simpa using List.mem_enum_iff_getElem?.mp hjre
  · rw [add_capacity_fit_objective_ok [Room.mk 30 false false]
      [Lesson.mk 20 (Timestamp.mk 0 false) (Timestamp.mk 0 false)]
      [("capacity_weight", 1)] 1 rfl]
    simp [List.enum, List.enumFrom, List.filter]
    norm_num [pyInt]
    decide

theorem capacity_fit_objective_spec_witness :
    ([("capacity_weight", (1 : ℚ))].lookup "capacity_weight" = some 1) ∧
    ((0 : ℚ) ≤ 1) ∧ (0 < [lessonA].length) ∧ (0 < [roomA].length) ∧
    ([lessonA][0].student_count ≤ [roomA][0].capacity) ∧
    ((∃ terms, add_capacity_fit_objective [roomA] [lessonA]
          [("capacity_weight", (1 : ℚ))] = Except.ok terms ∧
        ObjTerm.mk ⌊(if 0 < [roomA][0].capacity
          then ([lessonA][0].student_count : ℚ) / ([roomA][0].capacity : ℚ)
          else 0) * 100 * 1⌋ 0 0 ∈ terms ∧
        ∀ t ∈ terms, ∃ lesson room, [lessonA][t.lessonIdx]? = some lesson ∧
          [roomA][t.roomIdx]? = some room ∧
          lesson.student_count ≤ room.capacity) ∧
      add_capacity_fit_objective [Room.mk 30 false false]
        [Lesson.mk 20 (Timestamp.mk 0 false) (Timestamp.mk 0 false)]
        [("capacity_weight", 1)] = Except.ok [ObjTerm.mk 66 0 0]) :=
  ⟨rfl, zero_le_one, by decide, by decide, by decide,
   capacity_fit_objective_spec [roomA] [lessonA]
     [("capacity_weight", (1 : ℚ))] 1 rfl zero_le_one 0 0
     (by decide) (by decide) (by decide)⟩

/-! ## C4: the equipment objective -/

lemma pyGT_ok {a b : PyDateTime} (h : a.aware = b.aware) :
    pyGT a b = Except.ok (decide (b.clock < a.clock)) := by
  rw [pyGT, if_pos h]

lemma enum_snd_mem {α : Type} {l : List α} {p : Nat × α} (h : p ∈ l.enum) :
    p.2 ∈ l := by
  obtain ⟨hlt, heq⟩ :=
    List.getElem?_eq_some_iff.mp (List.mem_enum_iff_getElem?.mp h)
  exact heq ▸ List.getElem_mem hlt

lemma ac_score_nonneg (p : ℚ) : 0 ≤ ac_score p := by
  unfold ac_score
  split_ifs <;> norm_num

lemma heater_score_nonneg (p : ℚ) : 0 ≤ heater_score p := by
  unfold heater_score
  split_ifs <;> norm_num

lemma equipment_score_nonneg (r : Room) (b : Bool) (p : ℚ) :
    0 ≤ equipment_score r b p := by
  cases b <;>
    · simp only [equipment_score]
      split_ifs <;>
        exact add_nonneg
          (by first | exact ac_score_nonneg p | norm_num)
          (by first | exact heater_score_nonneg p | norm_num)

lemma add_equipment_objective_ok (rooms : List Room) (lessons : List Lesson)
    (prefs : List (String × ℚ)) (sevenDays : PyDateTime)
    (preds : List ((Nat × Nat) × ℚ)) (ew : ℚ)
    (hew : prefs.lookup "equipment_weight" = some ew)
    (hall : ∀ l ∈ lessons, (fromisoformat_z l.start_time).aware =
      sevenDays.aware) :
    add_equipment_objective rooms lessons prefs sevenDays preds = Except.ok
      ((lessons.enum.map (fun il => rooms.enum.map (fun jr =>
        ObjTerm.mk (pyInt (equipment_score jr.2
          (decide (sevenDays.clock < (fromisoformat_z il.2.start_time).clock))
          ((preds.lookup (il.1, jr.1)).getD 21) * ew)) il.1 jr.1))).flatten) := by
  rw [add_equipment_objective]
  rw [mapM_ok_of_eq _ (fun il => rooms.enum.map (fun jr =>
    ObjTerm.mk (pyInt (equipment_score jr.2
      (decide (sevenDays.clock < (fromisoformat_z il.2.start_time).clock))
      ((preds.lookup (il.1, jr.1)).getD 21) * ew)) il.1 jr.1)) _ ?_]
  · rfl
  · intro il hil
    rw [pyGT_ok (hall il.2 (enum_snd_mem hil))]
    exact mapM_ok_of_eq _ _ _ (fun jr _ => by rw [lookupWeight_ok hew]; rfl)

/-- C4: for every (lesson, room) pair, the objective contains the term
`⌊equipment_score × equipment_weight⌋` on the pair's variable, where beyond
the 7-day horizon the raw equipment score is static 20 (AC) + 20 (heater)
independent of any predicted temperature (both present give 40), and within
the horizon the AC chain contributes 50 / 30 / 10 / 0 on the intervals
`p > 25`, `23 < p ≤ 25`, `21 < p ≤ 23`, else, and the heater chain 50 / 30 /
10 / 0 on `p < 17`, `17 ≤ p < 19`, `19 ≤ p < 21`, else. -/
theorem equipment_objective_spec (rooms : List Room) (lessons : List Lesson)
    (prefs : List (String × ℚ)) (sevenDays : PyDateTime)
    (preds : List ((Nat × Nat) × ℚ)) (ew : ℚ)
    (hew : prefs.lookup "equipment_weight" = some ew) (h0 : 0 ≤ ew)
    (hall : ∀ l ∈ lessons, (fromisoformat_z l.start_time).aware =
      sevenDays.aware)
    (i j : Nat) (hi : i < lessons.length) (hj : j < rooms.length) :
    (∃ terms, add_equipment_objective rooms lessons prefs sevenDays preds =
        Except.ok terms ∧
      ObjTerm.mk ⌊equipment_score rooms[j]
        (decide (sevenDays.clock < (fromisoformat_z lessons[i].start_time).clock))
        ((preds.lookup (i, j)).getD 21) * ew⌋ i j ∈ terms) ∧
    (∀ q : ℚ, ac_score q = if 25 < q then 50
      else if 23 < q ∧ q ≤ 25 then 30
      else if 21 < q ∧ q ≤ 23 then 10 else 0) ∧
    (∀ q : ℚ, heater_score q = if q < 17 then 50
      else if 17 ≤ q ∧ q < 19 then 30
      else if 19 ≤ q ∧ q < 21 then 10 else 0) ∧
    (∀ (r : Room) (q : ℚ), r.hasAC = true → r.hasHeater = true →
      equipment_score r true q = 40) := by
  refine ⟨⟨_, add_equipment_objective_ok rooms lessons prefs sevenDays preds
      ew hew hall, ?_⟩, ?_, ?_, ?_⟩
  · rw [← pyInt_eq_floor (mul_nonneg (equipment_score_nonneg _ _ _) h0)]
    have h := mem_flatten_map
      (fun il jr => ObjTerm.mk (pyInt (equipment_score jr.2
        (decide (sevenDays.clock < (fromisoformat_z il.2.start_time).clock))
        ((preds.lookup (il.1, jr.1)).getD 21) * ew)) il.1 jr.1)
      (mem_enum_self lessons i hi) (mem_enum_self rooms j hj)
    simp only [] at h
    exact h
  · intro q
    by_cases hq1 : 25 < q
    · simp [ac_score, hq1]
    · by_cases hq2 : 23 < q
      · simp [ac_score, hq1, hq2, not_lt.mp hq1]
      · by_cases hq3 : 21 < q
        · simp [ac_score, hq1, hq2, hq3, not_lt.mp hq2]
        · simp [ac_score, hq1, hq2, hq3]
  · intro q
    by_cases hq1 : q < 17
    · simp [heater_score, hq1]
    · by_cases hq2 : q < 19
      · simp [heater_score, hq1, hq2, not_lt.mp hq1]
      · by_cases hq3 : q < 21
        · simp [heater_score, hq1, hq2, hq3, not_lt.mp hq2]
        · simp [heater_score, hq1, hq2, hq3]
  · intro r q h1 h2
    norm_num [equipment_score, h1, h2]

theorem equipment_objective_spec_witness :
    ([("equipment_weight", (1 : ℚ))].lookup "equipment_weight" = some 1) ∧
    ((0 : ℚ) ≤ 1) ∧
    (∀ l ∈ [lessonA], (fromisoformat_z l.start_time).aware = sevenA.aware) ∧
    (0 < [lessonA].length) ∧ (0 < [roomA].length) ∧
    ((∃ terms, add_equipment_objective [roomA] [lessonA]
          [("equipment_weight", (1 : ℚ))] sevenA [] = Except.ok terms ∧
        ObjTerm.mk ⌊equipment_score [roomA][0]
          (decide (sevenA.clock <
            (fromisoformat_z [lessonA][0].start_time).clock))
          ((([] : List ((Nat × Nat) × ℚ)).lookup (0, 0)).getD 21) * 1⌋
          0 0 ∈ terms) ∧
      (∀ q : ℚ, ac_score q = if 25 < q then 50
        else if 23 < q ∧ q ≤ 25 then 30
        else if 21 < q ∧ q ≤ 23 then 10 else 0) ∧
      (∀ q : ℚ, heater_score q = if q < 17 then 50
        else if 17 ≤ q ∧ q < 19 then 30
        else if 19 ≤ q ∧ q < 21 then 10 else 0) ∧
      (∀ (r : Room) (q : ℚ), r.hasAC = true → r.hasHeater = true →
        equipment_score r true q = 40)) :=
  ⟨rfl, zero_le_one, by decide, by decide, by decide,
   equipment_objective_spec [roomA] [lessonA] [("equipment_weight", (1 : ℚ))]
     sevenA [] 1 rfl zero_le_one (by decide) 0 0 (by decide) (by decide)⟩

/-! ## C6: the temperature-prediction map -/

lemma lookup_isSome_of_mem {α β : Type} [BEq α] [LawfulBEq α]
    {l : List (α × β)} {k : α} {v : β} (h : (k, v) ∈ l) :
    (l.lookup k).isSome = true := by
  induction l with
  | nil => exact absurd h (List.not_mem_nil _)
  | cons p t ih =>
    obtain ⟨a, b⟩ := p
    cases hp : k == a with
    | true => simp [List.lookup, hp]
    | false =>
      rcases List.mem_cons.mp h with heq | hmem
      · injection heq with h1 h2
        subst h1
        simp at hp
      · simp only [List.lookup, hp]
        exact ih hmem

lemma calculate_predictions_ok (rooms : List Room) (lessons : List Lesson)
    (sevenDays : PyDateTime) (forecast : Nat → Nat → Option ℚ)
    (hall : ∀ l ∈ lessons, (fromisoformat_z l.start_time).aware =
      sevenDays.aware) :
    calculate_all_temperature_predictions true rooms lessons sevenDays
        forecast = Except.ok
      ((lessons.enum.map (fun il => (List.range rooms.length).map (fun j =>
        ((il.1, j),
          if decide (sevenDays.clock < (fromisoformat_z il.2.start_time).clock)
          then (21 : ℚ) else (forecast il.1 j).getD 21)))).flatten) := by
  rw [calculate_all_temperature_predictions]
  rw [if_pos rfl]
  rw [mapM_ok_of_eq _ (fun il => (List.range rooms.length).map (fun j =>
    ((il.1, j),
      if decide (sevenDays.clock < (fromisoformat_z il.2.start_time).clock)
      then (21 : ℚ) else (forecast il.1 j).getD 21))) _ ?_]
  · rfl
  · intro il hil
    rw [pyGT_ok (hall il.2 (enum_snd_mem hil))]
    rfl

/-- C6, counterexample: when the regression model cannot be loaded,
`_calculate_all_temperature_predictions` returns at once and the prediction
map stays empty — the pair (0, 0) of a 1-lesson/1-room instance has no entry
before the objectives are built, contradicting the claim that every pair has
a defined entry in the map even in that case. -/
theorem temperature_predictions_counterexample :
    calculate_all_temperature_predictions false [roomA] [lessonA] sevenA
        noForecast = Except.ok [] ∧
    ([] : List ((Nat × Nat) × ℚ)).lookup (0, 0) = none :=
  ⟨rfl, rfl⟩

/-- C6, amended: when the regression model loads (and the horizon comparisons
do not raise), every (lesson index, room index) pair has a defined entry in
the prediction map before objective construction; when the model cannot be
loaded, the map is left empty and the objective builders instead supply the
default 21.0 at lookup time. -/
theorem temperature_predictions_spec (rooms : List Room)
    (lessons : List Lesson) (sevenDays : PyDateTime)
    (forecast : Nat → Nat → Option ℚ)
    (hall : ∀ l ∈ lessons, (fromisoformat_z l.start_time).aware =
      sevenDays.aware) :
    (∃ m, calculate_all_temperature_predictions true rooms lessons sevenDays
        forecast = Except.ok m ∧
      ∀ i j, i < lessons.length → j < rooms.length →
        (m.lookup (i, j)).isSome = true) ∧
    (calculate_all_temperature_predictions false rooms lessons sevenDays
        forecast = Except.ok [] ∧
      ∀ i j : Nat, (([] : List ((Nat × Nat) × ℚ)).lookup (i, j)).getD 21
        = 21) := by
  refine ⟨⟨_, calculate_predictions_ok rooms lessons sevenDays forecast hall,
    ?_⟩, rfl, fun i j => rfl⟩
  intro i j hi hj
  have h := mem_flatten_map
    (fun il jn => ((il.1, jn),
      if decide (sevenDays.clock < (fromisoformat_z il.2.start_time).clock)
      then (21 : ℚ) else (forecast il.1 jn).getD 21))
    (mem_enum_self lessons i hi) (List.mem_range.mpr hj)
  simp only [] at h
  exact lookup_isSome_of_mem h

theorem temperature_predictions_spec_witness :
    (∀ l ∈ [lessonA], (fromisoformat_z l.start_time).aware = sevenA.aware) ∧
    ((∃ m, calculate_all_temperature_predictions true [roomA] [lessonA]
          sevenA noForecast = Except.ok m ∧
        ∀ i j, i < [lessonA].length → j < [roomA].length →
          (m.lookup (i, j)).isSome = true) ∧
      (calculate_all_temperature_predictions false [roomA] [lessonA] sevenA
          noForecast = Except.ok [] ∧
        ∀ i j : Nat, (([] : List ((Nat × Nat) × ℚ)).lookup (i, j)).getD 21
          = 21)) :=
  ⟨by decide,
   temperature_predictions_spec [roomA] [lessonA] sevenA noForecast
     (by decide)⟩

/-! ## C7: the reported per-assignment scores -/

lemma extract_row_scores {rooms : List Room} {prefs : List (String × ℚ)}
    {x : Nat → Nat → Bool} {il : Nat × Lesson} {row : List Assignment}
    {cw ew tw : ℚ}
    (hcw : prefs.lookup "capacity_weight" = some cw)
    (hew : prefs.lookup "equipment_weight" = some ew)
    (htw : prefs.lookup "temperature_weight" = some tw)
    (hrow : (match rooms.enum.find? (fun jr => x il.1 jr.1) with
      | none => Except.ok ([] : List Assignment)
      | some jr => do
          let cf := capacity_fit_raw il.2 jr.2
          let eqs := equipment_raw jr.2
          let cw2 ← lookupWeight prefs "capacity_weight"
          let ew2 ← lookupWeight prefs "equipment_weight"
          let tw2 ← lookupWeight prefs "temperature_weight"
          Except.ok [Assignment.mk il.1 jr.1
            (Scores.mk (round3 cf) (round3 eqs) (4/5)
              (round3 (cf * cw2 + eqs * ew2 + (4/5) * tw2)))]) =
        Except.ok row) :
    ∀ a ∈ row, ∃ jr ∈ rooms.enum, a = Assignment.mk il.1 jr.1
      (Scores.mk (round3 (capacity_fit_raw il.2 jr.2))
        (round3 (equipment_raw jr.2)) (4/5)
        (round3 (capacity_fit_raw il.2 jr.2 * cw + equipment_raw jr.2 * ew +
          (4/5) * tw))) := by
  cases hfind : rooms.enum.find? (fun jr => x il.1 jr.1) with
  | none =>
    rw [hfind] at hrow
    have hrow2 : ([] : List Assignment) = row := Except.ok.inj hrow
    subst hrow2
    intro a ha
    exact absurd ha (List.not_mem_nil a)
  | some jr =>
    rw [hfind] at hrow
    rw [lookupWeight_ok hcw, lookupWeight_ok hew, lookupWeight_ok htw] at hrow
    have hrow2 : [Assignment.mk il.1 jr.1
        (Scores.mk (round3 (capacity_fit_raw il.2 jr.2))
          (round3 (equipment_raw jr.2)) (4/5)
          (round3 (capacity_fit_raw il.2 jr.2 * cw + equipment_raw jr.2 * ew +
            (4/5) * tw)))] = row := Except.ok.inj hrow
    subst hrow2
    intro a ha
    have ha2 := List.mem_singleton.mp ha
    subst ha2
    exact ⟨jr, List.mem_of_find?_eq_some hfind, rfl⟩

/-- C7: extraction never fails when the three weights are present, its
reported `temperature` sub-score is the fixed placeholder 0.8 for every
assignment — independent of the prediction map, which `_extract_solution`
does not consult — and the reported `overall` equals
`round3(capacity_fit·cw + equipment·ew + 0.8·tw)` built from the raw
(unrounded) capacity-fit and equipment sub-scores. -/
theorem extract_solution_scores (rooms : List Room) (lessons : List Lesson)
    (prefs : List (String × ℚ)) (x : Nat → Nat → Bool) (cw ew tw : ℚ)
    (hcw : prefs.lookup "capacity_weight" = some cw)
    (hew : prefs.lookup "equipment_weight" = some ew)
    (htw : prefs.lookup "temperature_weight" = some tw) :
    ∃ res, extract_assignments rooms lessons prefs x = Except.ok res ∧
      ∀ a ∈ res, a.scores.temperature = 4/5 ∧
        ∃ lesson ∈ lessons, ∃ room ∈ rooms,
          a.scores.capacity_fit = round3 (capacity_fit_raw lesson room) ∧
          a.scores.equipment = round3 (equipment_raw room) ∧
          a.scores.overall = round3 (capacity_fit_raw lesson room * cw +
            equipment_raw room * ew + (4/5) * tw) := by
  obtain ⟨rows, hrows⟩ := mapM_isOk_of_forall (fun il =>
    match rooms.enum.find? (fun jr => x il.1 jr.1) with
    | none => Except.ok ([] : List Assignment)
    | some jr => do
        let cf := capacity_fit_raw il.2 jr.2
        let eqs := equipment_raw jr.2
        let cw ← lookupWeight prefs "capacity_weight"
        let ew ← lookupWeight prefs "equipment_weight"
        let tw ← lookupWeight prefs "temperature_weight"
        Except.ok [Assignment.mk il.1 jr.1
          (Scores.mk (round3 cf) (round3 eqs) (4/5)
            (round3 (cf * cw + eqs * ew + (4/5) * tw)))]) lessons.enum (by
    intro il _
    simp only []
    cases hfind : rooms.enum.find? (fun jr => x il.1 jr.1) with
    | none => exact ⟨[], rfl⟩
    | some jr =>
      exact ⟨[Assignment.mk il.1 jr.1
          (Scores.mk (round3 (capacity_fit_raw il.2 jr.2))
            (round3 (equipment_raw jr.2)) (4/5)
            (round3 (capacity_fit_raw il.2 jr.2 * cw +
              equipment_raw jr.2 * ew + (4/5) * tw)))],
        by rw [lookupWeight_ok hcw, lookupWeight_ok hew,
          lookupWeight_ok htw]; rfl⟩)
  refine ⟨rows.flatten, ?_, ?_⟩
  · rw [extract_assignments, hrows]
    rfl
  · intro a ha
    obtain ⟨row, hrowmem, harow⟩ := List.mem_flatten.mp ha
    obtain ⟨il, hil, hrow⟩ := mapM_ok_mem_source hrows row hrowmem
    obtain ⟨jr, hjr, haeq⟩ := extract_row_scores hcw hew htw hrow a harow
    subst haeq
    exact ⟨rfl, il.2, enum_snd_mem hil, jr.2, enum_snd_mem hjr,
      rfl, rfl, rfl⟩

/-- Valuation assigning every lesson to room 0. -/
def xAll : Nat → Nat → Bool := fun _ j => decide (j = 0)

theorem extract_solution_scores_witness :
    (default_preferences.lookup "capacity_weight" = some (1/2)) ∧
    (default_preferences.lookup "equipment_weight" = some (1/5)) ∧
    (default_preferences.lookup "temperature_weight" = some (3/10)) ∧
    (∃ res, extract_assignments [roomA] [lessonA] default_preferences xAll =
        Except.ok res ∧
      ∀ a ∈ res, a.scores.temperature = 4/5 ∧
        ∃ lesson ∈ [lessonA], ∃ room ∈ [roomA],
          a.scores.capacity_fit = round3 (capacity_fit_raw lesson room) ∧
          a.scores.equipment = round3 (equipment_raw room) ∧
          a.scores.overall = round3 (capacity_fit_raw lesson room * (1/2) +
            equipment_raw room * (1/5) + (4/5) * (3/10))) :=
  ⟨rfl, rfl, rfl,
   extract_solution_scores [roomA] [lessonA] default_preferences xAll
     (1/2) (1/5) (3/10) rfl rfl rfl⟩

/-! ## C8: optimize raises on UTC-suffixed timestamps -/

/-- Lesson whose ISO-8601 timestamps carry the UTC suffix. -/
def awareLesson : Lesson :=
  Lesson.mk 20 (Timestamp.mk 1000 true) (Timestamp.mk 1060 true)

/-- Solver stub reporting no feasible solution. -/
def solveNone : List CpConstraint → List ObjTerm →
    SolveStatus × (Nat → Nat → Bool) :=
  fun _ _ => (SolveStatus.other, fun _ _ => false)

/-- C8: `optimize` is not exception-free on the spec's stated input domain:
for a lesson whose timestamps are UTC-suffixed (hence parsed offset-aware by
the "Z" → "+00:00" replacement), the comparison with the offset-naive
`seven_days_from_now` in `_add_equipment_objective` raises `TypeError`
instead of returning a result — even in the most favourable configuration
(regression model not loaded, so the prediction pass returns early and does
not raise first). -/
theorem optimize_typeerror_on_utc_suffix :
    optimize [roomA] [awareLesson] none false sevenA noForecast solveNone =
      Except.error PyError.typeError := by
  rfl

/-! ## C9: preference defaults are all-or-nothing -/

/-- A preferences dict supplying only two of the three weights. -/
def partialPrefs : List (String × ℚ) :=
  [("temperature_weight", 3/10), ("equipment_weight", 1/5)]

/-- C9, counterexample: with a non-empty preferences mapping that lacks
`capacity_weight`, `optimize` raises `KeyError` when the capacity-fit
objective reads the weight — the missing key is not defaulted and
optimization does not proceed. -/
theorem preferences_keyerror_counterexample :
    optimize [roomA] [lessonA] (some partialPrefs) false sevenA noForecast
        solveNone = Except.error (PyError.keyError "capacity_weight") := by
  rfl

/-- C9, amended: the preferences argument is optional only as a whole —
`preferences or {...}` replaces the argument by the defaults (capacity 0.5,
equipment 0.2, temperature 0.3) exactly when it is `None` or an empty dict;
a non-empty mapping is used as-is and missing keys are not defaulted (their
access raises `KeyError`). -/
theorem preferences_default_spec (p : List (String × ℚ)) (hp : p ≠ []) :
    init_preferences none = default_preferences ∧
    init_preferences (some []) = default_preferences ∧
    default_preferences.lookup "capacity_weight" = some (1/2) ∧
    default_preferences.lookup "equipment_weight" = some (1/5) ∧
    default_preferences.lookup "temperature_weight" = some (3/10) ∧
    init_preferences (some p) = p := by
  refine ⟨rfl, rfl, rfl, rfl, rfl, ?_⟩
  rw [init_preferences]
  rw [if_neg (by simpa [List.isEmpty_iff] using hp)]

theorem preferences_default_spec_witness :
    (partialPrefs ≠ []) ∧
    (init_preferences none = default_preferences ∧
     init_preferences (some []) = default_preferences ∧
     default_preferences.lookup "capacity_weight" = some (1/2) ∧
     default_preferences.lookup "equipment_weight" = some (1/5) ∧
     default_preferences.lookup "temperature_weight" = some (3/10) ∧
     init_preferences (some partialPrefs) = partialPrefs) :=
  ⟨by decide, preferences_default_spec partialPrefs (by decide)⟩

end SmartClass